import Mathlib

/-!
Verification of the narrow-phase collision detection and impulse resolution
core in `src/data_oriented/dod/dod/CollisionSolver.cpp`.

The C++ code works over `math::Vec2` (float pairs) and `math::Bounds`
(axis-aligned bounding boxes).  We embed floats as exact rationals `ℚ`,
with the sentinel constants `std::numeric_limits<float>::max()` /
`lowest()` taken at their exact rational values.  The solver's mutable
reference out-parameters (velocities, overlap accumulators) are embedded
as a pure function returning the post-call values.
-/

namespace CollisionSolver

/-- 2D vector of rationals, embedding `math::Vec2` (float pair). -/
structure Vec2 where
  x : ℚ
  y : ℚ
  deriving DecidableEq, Repr

namespace Vec2

/-- Componentwise addition (`Vec2::operator+`). -/
def add (a b : Vec2) : Vec2 := ⟨a.x + b.x, a.y + b.y⟩

/-- Componentwise subtraction (`Vec2::operator-`). -/
def sub (a b : Vec2) : Vec2 := ⟨a.x - b.x, a.y - b.y⟩

/-- Scaling by a scalar (`Vec2::operator*(float)`). -/
def scale (a : Vec2) (s : ℚ) : Vec2 := ⟨a.x * s, a.y * s⟩

/-- Dot product (`Vec2::dot`). -/
def dot (a b : Vec2) : ℚ := a.x * b.x + a.y * b.y

/-- Negation. -/
def neg (a : Vec2) : Vec2 := ⟨-a.x, -a.y⟩

instance : Add Vec2 := ⟨add⟩
instance : Sub Vec2 := ⟨sub⟩
instance : Neg Vec2 := ⟨neg⟩

/-- Modelled from the spec: `Vec2::getNormal`, the perpendicular
("normal") operation of the Vector2 primitive (§3 of the spec); the
`Vec2` source is an external math library, not part of this core.  We
take the clockwise perpendicular `(y, −x)`; the spec treats axes handed
to `project` as unit vectors (§4.2), which holds whenever the generating
edge has length 1. -/
def getNormal (a : Vec2) : Vec2 := ⟨a.y, -a.x⟩

/-- The zero vector, also the value-initialized `Vec2 normal;`. -/
def zero : Vec2 := ⟨0, 0⟩

theorem add_def (a b : Vec2) : a + b = ⟨a.x + b.x, a.y + b.y⟩ := rfl

theorem sub_def (a b : Vec2) : a - b = ⟨a.x - b.x, a.y - b.y⟩ := rfl

end Vec2

/-- Axis-aligned bounding box, embedding `math::Bounds`: a top-left and a
bottom-right corner point. -/
structure Bounds where
  topLeft : Vec2
  bottomRight : Vec2
  deriving DecidableEq, Repr

/-- Projection interval of a shape on an axis (the anonymous-namespace
`Projection` struct). -/
structure Projection where
  min : ℚ
  max : ℚ
  deriving DecidableEq, Repr

/-- Penetration result of a directional SAT probe (the anonymous-namespace
`Overlap` struct). -/
structure Overlap where
  depth : ℚ
  direction : Vec2
  deriving DecidableEq, Repr

/-- Exact value of `std::numeric_limits<float>::max()`. -/
def floatMax : ℚ := (2 ^ 24 - 1) * 2 ^ 104

/-- Exact value of `std::numeric_limits<float>::lowest()`. -/
def floatLowest : ℚ := -floatMax

/-- `areBothStatic`: both inverse masses are zero. -/
def areBothStatic (massInverseA massInverseB : ℚ) : Bool :=
  massInverseA == 0 && massInverseB == 0

/-- `boundsOverlap`: broad-phase AABB test, early-out on each of the four
strict comparisons exactly as in the source. -/
def boundsOverlap (boundsA boundsB : Bounds) : Bool :=
  if boundsA.bottomRight.x ≤ boundsB.topLeft.x then false
  else if boundsA.topLeft.x ≥ boundsB.bottomRight.x then false
  else if boundsA.bottomRight.y ≤ boundsB.topLeft.y then false
  else if boundsA.topLeft.y ≥ boundsB.bottomRight.y then false
  else true

/-- The fold step of `project`: update running minimum and maximum with
one vertex's projection. -/
def projectStep (n : Vec2) (acc : Projection) (v : Vec2) : Projection :=
  let proj := n.dot v
  let acc1 := if proj < acc.min then { acc with min := proj } else acc
  if proj > acc1.max then { acc1 with max := proj } else acc1

/-- `project`: project each vertex onto the axis `n`, tracking minimum and
maximum, starting from the float sentinel values as in the source. -/
def project (vertices : List Vec2) (n : Vec2) : Projection :=
  vertices.foldl (projectStep n) ⟨floatMax, floatLowest⟩

/-- The list of candidate axes iterated by `checkOverlap`'s edge loop, in
loop order: iteration `v2 = i` pairs vertex `i` with the previous vertex
(`v1` starts at `size - 1` and wraps the last vertex to the first), takes
the edge from `v1` to `v2` and the edge's normal. -/
def axes (vs : List Vec2) : List Vec2 :=
  List.zipWith (fun v2 v1 => (Vec2.sub v2 v1).getNormal) vs (vs.getLastD Vec2.zero :: vs.dropLast)

/-- The projection interval of shape B on axis `n`, shifted by `n·d` into
A's frame (the `projB.min += projD; projB.max += projD;` lines). -/
def shiftedProjB (d : Vec2) (verticesB : List Vec2) (n : Vec2) : Projection :=
  let projB := project verticesB n
  let projD := n.dot d
  ⟨projB.min + projD, projB.max + projD⟩

/-- The separating-axis test on one axis: after shifting B's interval, the
two intervals do not overlap. -/
def separates (d : Vec2) (verticesA verticesB : List Vec2) (n : Vec2) : Prop :=
  (shiftedProjB d verticesB n).min ≥ (project verticesA n).max ∨
  (shiftedProjB d verticesB n).max ≤ (project verticesA n).min

instance (d : Vec2) (verticesA verticesB : List Vec2) (n : Vec2) :
    Decidable (separates d verticesA verticesB n) := by
  unfold separates; infer_instance

/-- Penetration depth measured on one axis: `abs(projA.max - projB.min)`
with B's interval shifted. -/
def penetration (d : Vec2) (verticesA verticesB : List Vec2) (n : Vec2) : ℚ :=
  |(project verticesA n).max - (shiftedProjB d verticesB n).min|

/-- The loop body of `checkOverlap`, recursing over the remaining axes
with the running minimum penetration and its normal. -/
def checkOverlapAux (d : Vec2) (verticesA verticesB : List Vec2) :
    List Vec2 → ℚ → Vec2 → Option Overlap
  | [], minPenetration, normal => some ⟨minPenetration, normal⟩
  | n :: rest, minPenetration, normal =>
      if separates d verticesA verticesB n then none
      else
        let p := penetration d verticesA verticesB n
        if p < minPenetration then checkOverlapAux d verticesA verticesB rest p n
        else checkOverlapAux d verticesA verticesB rest minPenetration normal

/-- `checkOverlap`: the directional SAT probe over A's edges.  Starts the
running minimum at `numeric_limits<float>::max()` and the normal at the
default-constructed vector, as in the source. -/
def checkOverlap (posA posB : Vec2) (verticesA verticesB : List Vec2) : Option Overlap :=
  checkOverlapAux (posB - posA) verticesA verticesB (axes verticesA) floatMax Vec2.zero

/-- The four values `solveCollision` mutates in place, returned as a pure
result (per §9 of the spec, mutable out-parameters may be modelled as a
pure function returning the new state). -/
structure SolveResult where
  velocityA : Vec2
  velocityB : Vec2
  overlapAccumulatorA : Vec2
  overlapAccumulatorB : Vec2
  deriving DecidableEq, Repr

/-- `CollisionSolver::solveCollision`, embedded as a pure function from
the borrowed inputs and the current velocities/accumulators to their
post-call values. -/
def solveCollision (massInverseA massInverseB : ℚ) (boundsA boundsB : Bounds)
    (posA posB : Vec2) (verticesA verticesB : List Vec2)
    (velocityA velocityB overlapAccumulatorA overlapAccumulatorB : Vec2) : SolveResult :=
  if areBothStatic massInverseA massInverseB || !boundsOverlap boundsA boundsB then
    ⟨velocityA, velocityB, overlapAccumulatorA, overlapAccumulatorB⟩
  else
    match checkOverlap posA posB verticesA verticesB with
    | none => ⟨velocityA, velocityB, overlapAccumulatorA, overlapAccumulatorB⟩
    | some overlap1 =>
      match checkOverlap posB posA verticesB verticesA with
      | none => ⟨velocityA, velocityB, overlapAccumulatorA, overlapAccumulatorB⟩
      | some overlap2 =>
        let d := min overlap1.depth overlap2.depth
        let n := if overlap1.depth < overlap2.depth then overlap1.direction
                 else overlap2.direction
        let d1 := d * massInverseA / (massInverseA + massInverseB)
        let d2 := d - d1
        let d1' := if overlap1.depth ≥ overlap2.depth then d1 * (-1) else d1
        let d2' := if overlap1.depth ≥ overlap2.depth then d2 * (-1) else d2
        let vRel := velocityA - velocityB
        let j := -(n.dot vRel) * 2 / (massInverseA + massInverseB)
        ⟨velocityA + n.scale (j * massInverseA),
         velocityB - n.scale (j * massInverseB),
         overlapAccumulatorA - n.scale d1',
         overlapAccumulatorB + n.scale d2'⟩

/-! ### Concrete scenario from §8 of the spec

Two axis-aligned unit squares, A centered at `(0,0)`, B centered at
`(0.5,0)`, with bounds consistent with those positions. -/

/-- Local-space vertices of an axis-aligned unit square centered at the
origin, in counter-clockwise order. -/
def unitSquare : List Vec2 := [⟨-(1/2), -(1/2)⟩, ⟨1/2, -(1/2)⟩, ⟨1/2, 1/2⟩, ⟨-(1/2), 1/2⟩]

/-- World position of square A. -/
def posA0 : Vec2 := ⟨0, 0⟩

/-- World position of square B. -/
def posB0 : Vec2 := ⟨1/2, 0⟩

/-- Bounds of the unit square at `posA0`. -/
def boundsA0 : Bounds := ⟨⟨-(1/2), -(1/2)⟩, ⟨1/2, 1/2⟩⟩

/-- Bounds of the unit square at `posB0`. -/
def boundsB0 : Bounds := ⟨⟨0, -(1/2)⟩, ⟨1, 1/2⟩⟩

/-! ### Helper lemmas about `solveCollision`'s control flow -/

/-- The broad check holds exactly when all four strict inequalities
hold. -/
theorem boundsOverlap_iff (boundsA boundsB : Bounds) :
    boundsOverlap boundsA boundsB = true ↔
      (boundsB.topLeft.x < boundsA.bottomRight.x ∧
       boundsA.topLeft.x < boundsB.bottomRight.x ∧
       boundsB.topLeft.y < boundsA.bottomRight.y ∧
       boundsA.topLeft.y < boundsB.bottomRight.y) := by
  unfold boundsOverlap
  split_ifs with h1 h2 h3 h4
  · exact iff_of_false (by simp) fun hc => absurd hc.1 (not_lt.mpr h1)
  · exact iff_of_false (by simp) fun hc => absurd hc.2.1 (not_lt.mpr h2)
  · exact iff_of_false (by simp) fun hc => absurd hc.2.2.1 (not_lt.mpr h3)
  · exact iff_of_false (by simp) fun hc => absurd hc.2.2.2 (not_lt.mpr h4)
  · exact iff_of_true rfl ⟨not_le.mp h1, not_le.mp h2, not_le.mp h3, not_le.mp h4⟩

/-- When a guard rejects the pair or a probe reports no overlap,
`solveCollision` returns its inputs unchanged. -/
theorem solveCollision_miss (massInverseA massInverseB : ℚ) (boundsA boundsB : Bounds)
    (posA posB : Vec2) (verticesA verticesB : List Vec2)
    (velocityA velocityB overlapAccumulatorA overlapAccumulatorB : Vec2)
    (h : areBothStatic massInverseA massInverseB = true ∨
         boundsOverlap boundsA boundsB = false ∨
         checkOverlap posA posB verticesA verticesB = none ∨
         checkOverlap posB posA verticesB verticesA = none) :
    solveCollision massInverseA massInverseB boundsA boundsB posA posB verticesA verticesB
      velocityA velocityB overlapAccumulatorA overlapAccumulatorB =
      ⟨velocityA, velocityB, overlapAccumulatorA, overlapAccumulatorB⟩ := by
  unfold solveCollision
  rcases h with h | h | h | h
  · simp [h]
  · simp [h]
  · rcases h1 : areBothStatic massInverseA massInverseB || !boundsOverlap boundsA boundsB
    · simp only [Bool.false_eq_true, if_false, h]
    · simp
  · rcases h1 : areBothStatic massInverseA massInverseB || !boundsOverlap boundsA boundsB
    · simp only [Bool.false_eq_true, if_false, h]
      rcases h2 : checkOverlap posA posB verticesA verticesB <;> simp
    · simp

/-- When both guards pass and both probes report overlap, `solveCollision`
performs exactly the depth selection, mass-weighted correction, and
impulse of the source's tail. -/
theorem solveCollision_hit (massInverseA massInverseB : ℚ) (boundsA boundsB : Bounds)
    (posA posB : Vec2) (verticesA verticesB : List Vec2)
    (velocityA velocityB overlapAccumulatorA overlapAccumulatorB : Vec2)
    (overlap1 overlap2 : Overlap)
    (hs : areBothStatic massInverseA massInverseB = false)
    (hb : boundsOverlap boundsA boundsB = true)
    (h1 : checkOverlap posA posB verticesA verticesB = some overlap1)
    (h2 : checkOverlap posB posA verticesB verticesA = some overlap2) :
    solveCollision massInverseA massInverseB boundsA boundsB posA posB verticesA verticesB
      velocityA velocityB overlapAccumulatorA overlapAccumulatorB =
      (let d := min overlap1.depth overlap2.depth
       let n := if overlap1.depth < overlap2.depth then overlap1.direction
                else overlap2.direction
       let d1 := d * massInverseA / (massInverseA + massInverseB)
       let d2 := d - d1
       let d1' := if overlap1.depth ≥ overlap2.depth then d1 * (-1) else d1
       let d2' := if overlap1.depth ≥ overlap2.depth then d2 * (-1) else d2
       let j := -(n.dot (velocityA - velocityB)) * 2 / (massInverseA + massInverseB)
       ⟨velocityA + n.scale (j * massInverseA),
        velocityB - n.scale (j * massInverseB),
        overlapAccumulatorA - n.scale d1',
        overlapAccumulatorB + n.scale d2'⟩) := by
  unfold solveCollision
  simp [hs, hb, h1, h2]

/-! ### The directional SAT probe, characterized -/

theorem foldl_min_le_init (l : List ℚ) : ∀ a : ℚ, l.foldl min a ≤ a := by
  induction l with
  | nil => intro a; exact le_refl a
  | cons b t ih =>
    intro a
    exact le_trans (ih (min a b)) (min_le_left a b)

theorem foldl_min_le_mem (l : List ℚ) : ∀ a b : ℚ, b ∈ l → l.foldl min a ≤ b := by
  induction l with
  | nil => intro a b hb; cases hb
  | cons c t ih =>
    intro a b hb
    rcases List.mem_cons.mp hb with rfl | hb
    · exact le_trans (foldl_min_le_init t (min a b)) (min_le_right a b)
    · exact ih (min a c) b hb

/-- The probe loop returns the no-overlap sentinel exactly when some axis
of the remaining list separates the two (shifted) projections. -/
theorem checkOverlapAux_eq_none_iff (d : Vec2) (verticesA verticesB : List Vec2)
    (l : List Vec2) : ∀ mp nm,
    checkOverlapAux d verticesA verticesB l mp nm = none ↔
      ∃ n ∈ l, separates d verticesA verticesB n := by
  induction l with
  | nil => intro mp nm; simp [checkOverlapAux]
  | cons n t ih =>
    intro mp nm
    by_cases hsep : separates d verticesA verticesB n
    · simp [checkOverlapAux, hsep]
    · simp only [checkOverlapAux, if_neg hsep]
      rw [List.exists_mem_cons_iff, or_iff_right hsep]
      split_ifs with hp
      · exact ih _ _
      · exact ih _ _

/-- If the probe loop returns an overlap, its depth is the running minimum
folded over the remaining axes' penetrations, and its direction either is
the carried-in normal (with the carried-in depth) or attains the
penetration of one of the remaining axes. -/
theorem checkOverlapAux_eq_some (d : Vec2) (verticesA verticesB : List Vec2)
    (l : List Vec2) : ∀ mp nm o,
    checkOverlapAux d verticesA verticesB l mp nm = some o →
      o.depth = (l.map (penetration d verticesA verticesB)).foldl min mp ∧
      ((o.depth = mp ∧ o.direction = nm) ∨
        ∃ n ∈ l, o.direction = n ∧ o.depth = penetration d verticesA verticesB n) := by
  induction l with
  | nil =>
    intro mp nm o h
    simp only [checkOverlapAux, Option.some.injEq] at h
    subst h
    exact ⟨rfl, Or.inl ⟨rfl, rfl⟩⟩
  | cons n t ih =>
    intro mp nm o h
    by_cases hsep : separates d verticesA verticesB n
    · simp [checkOverlapAux, hsep] at h
    · simp only [checkOverlapAux, if_neg hsep] at h
      by_cases hp : penetration d verticesA verticesB n < mp
      · rw [if_pos hp] at h
        obtain ⟨hdepth, hdisj⟩ := ih _ _ o h
        refine ⟨?_, ?_⟩
        · rw [hdepth, List.map_cons, List.foldl_cons, min_eq_right hp.le]
        · rcases hdisj with ⟨hd, hn⟩ | ⟨m, hm, hdir, hd⟩
          · exact Or.inr ⟨n, List.mem_cons_self n t, hn, hd⟩
          · exact Or.inr ⟨m, List.mem_cons_of_mem n hm, hdir, hd⟩
      · rw [if_neg hp] at h
        obtain ⟨hdepth, hdisj⟩ := ih _ _ o h
        refine ⟨?_, ?_⟩
        · rw [hdepth, List.map_cons, List.foldl_cons, min_eq_left (le_of_not_lt hp)]
        · rcases hdisj with ⟨hd, hn⟩ | ⟨m, hm, hdir, hd⟩
          · exact Or.inl ⟨hd, hn⟩
          · exact Or.inr ⟨m, List.mem_cons_of_mem n hm, hdir, hd⟩

/-! ### Concrete evaluations shared by several witnesses -/

/-- The probe A→B on the §8 unit-square scenario. -/
theorem checkOverlap_AB_eval :
    checkOverlap posA0 posB0 unitSquare unitSquare = some ⟨1/2, ⟨1, 0⟩⟩ := by
  norm_num [checkOverlap, checkOverlapAux, axes, separates, shiftedProjB, penetration,
    project, projectStep, Vec2.dot, Vec2.sub, Vec2.sub_def, Vec2.getNormal, Vec2.zero,
    posA0, posB0, unitSquare, floatMax, floatLowest, Projection.mk.injEq, abs_of_nonneg,
    abs_of_nonpos]

/-- The probe B→A on the §8 unit-square scenario. -/
theorem checkOverlap_BA_eval :
    checkOverlap posB0 posA0 unitSquare unitSquare = some ⟨1/2, ⟨-1, 0⟩⟩ := by
  norm_num [checkOverlap, checkOverlapAux, axes, separates, shiftedProjB, penetration,
    project, projectStep, Vec2.dot, Vec2.sub, Vec2.sub_def, Vec2.getNormal, Vec2.zero,
    posA0, posB0, unitSquare, floatMax, floatLowest, Projection.mk.injEq, abs_of_nonneg,
    abs_of_nonpos]

/-- The broad check passes on the §8 scenario's bounds. -/
theorem boundsOverlap_AB_eval : boundsOverlap boundsA0 boundsB0 = true := by
  norm_num [boundsOverlap, boundsA0, boundsB0]

/-- A pair is non-static whenever one inverse mass is nonzero. -/
theorem areBothStatic_eq_false_left (massInverseA massInverseB : ℚ)
    (h : massInverseA ≠ 0) : areBothStatic massInverseA massInverseB = false := by
  simp [areBothStatic, h]

/-- With nonnegative inverse masses, a non-static pair has positive summed
inverse mass. -/
theorem massSum_pos (massInverseA massInverseB : ℚ)
    (hmA : 0 ≤ massInverseA) (hmB : 0 ≤ massInverseB)
    (hs : areBothStatic massInverseA massInverseB = false) :
    0 < massInverseA + massInverseB := by
  rcases hmA.lt_or_eq with h | h
  · linarith
  · rcases hmB.lt_or_eq with h2 | h2
    · linarith
    · exfalso
      rw [areBothStatic, ← h, ← h2] at hs
      simp at hs

theorem le_foldl_min (l : List ℚ) :
    ∀ a c : ℚ, c ≤ a → (∀ b ∈ l, c ≤ b) → c ≤ l.foldl min a := by
  induction l with
  | nil => intro a c hc _; exact hc
  | cons b t ih =>
    intro a c hc hl
    exact ih (min a b) c (le_min hc (hl b (List.mem_cons_self b t)))
      fun m hm => hl m (List.mem_cons_of_mem b hm)

/-- Any overlap the probe returns has nonnegative depth: it is a running
minimum of absolute values started at a positive sentinel. -/
theorem checkOverlap_depth_nonneg (posA posB : Vec2) (verticesA verticesB : List Vec2)
    (o : Overlap) (h : checkOverlap posA posB verticesA verticesB = some o) :
    0 ≤ o.depth := by
  obtain ⟨hdepth, -⟩ :=
    checkOverlapAux_eq_some _ verticesA verticesB (axes verticesA) floatMax Vec2.zero o h
  rw [hdepth]
  refine le_foldl_min _ _ _ (by norm_num [floatMax]) ?_
  intro b hb
  obtain ⟨m, -, rfl⟩ := List.mem_map.mp hb
  exact abs_nonneg _

/-! ### Claims -/

/-- C9: `boundsOverlap` returns true only under strict (open) inequalities
on all four sides, so two boxes that merely touch edge-to-edge (a shared
coordinate on any of the four sides) are reported as not overlapping.
(The function is a pure Lean function of its two arguments, mirroring the
side-effect-free C++ source.) -/
theorem boundsOverlap_strict_and_touching (boundsA boundsB : Bounds) :
    (boundsOverlap boundsA boundsB = true ↔
      (boundsB.topLeft.x < boundsA.bottomRight.x ∧
       boundsA.topLeft.x < boundsB.bottomRight.x ∧
       boundsB.topLeft.y < boundsA.bottomRight.y ∧
       boundsA.topLeft.y < boundsB.bottomRight.y)) ∧
    ((boundsA.bottomRight.x = boundsB.topLeft.x ∨ boundsA.topLeft.x = boundsB.bottomRight.x ∨
      boundsA.bottomRight.y = boundsB.topLeft.y ∨ boundsA.topLeft.y = boundsB.bottomRight.y) →
      boundsOverlap boundsA boundsB = false) := by
  refine ⟨boundsOverlap_iff boundsA boundsB, fun h => ?_⟩
  rw [Bool.eq_false_iff]
  intro htrue
  have hc := (boundsOverlap_iff boundsA boundsB).mp htrue
  rcases h with h | h | h | h
  · exact absurd hc.1 (h ▸ lt_irrefl _)
  · exact absurd hc.2.1 (h ▸ lt_irrefl _)
  · exact absurd hc.2.2.1 (h ▸ lt_irrefl _)
  · exact absurd hc.2.2.2 (h ▸ lt_irrefl _)

/-- Witness for C9: two unit boxes sharing the vertical edge `x = 1` are
reported as not overlapping. -/
theorem boundsOverlap_strict_and_touching_witness :
    boundsOverlap ⟨⟨0, 0⟩, ⟨1, 1⟩⟩ ⟨⟨1, 0⟩, ⟨2, 1⟩⟩ = false :=
  (boundsOverlap_strict_and_touching ⟨⟨0, 0⟩, ⟨1, 1⟩⟩ ⟨⟨1, 0⟩, ⟨2, 1⟩⟩).2 (Or.inl rfl)

/-- C4: whenever both inverse masses are zero, or the bounding boxes do
not overlap, or either directional SAT probe reports no overlap,
`solveCollision` returns with neither body's velocity nor overlap
accumulator mutated.  (The zero-mass guard is the first test in the
source, so it is checked before the division by
`massInverseA + massInverseB` is ever reached; in this pure embedding
that ordering is reflected by the guard branch returning the inputs
without mentioning the divided quantities.) -/
theorem solveCollision_guards_no_mutation (massInverseA massInverseB : ℚ)
    (boundsA boundsB : Bounds) (posA posB : Vec2) (verticesA verticesB : List Vec2)
    (velocityA velocityB overlapAccumulatorA overlapAccumulatorB : Vec2)
    (h : areBothStatic massInverseA massInverseB = true ∨
         boundsOverlap boundsA boundsB = false ∨
         checkOverlap posA posB verticesA verticesB = none ∨
         checkOverlap posB posA verticesB verticesA = none) :
    solveCollision massInverseA massInverseB boundsA boundsB posA posB verticesA verticesB
      velocityA velocityB overlapAccumulatorA overlapAccumulatorB =
      ⟨velocityA, velocityB, overlapAccumulatorA, overlapAccumulatorB⟩ :=
  solveCollision_miss massInverseA massInverseB boundsA boundsB posA posB verticesA verticesB
    velocityA velocityB overlapAccumulatorA overlapAccumulatorB h

/-- Witness for C4: an immovable pair (both inverse masses zero) is left
untouched. -/
theorem solveCollision_guards_no_mutation_witness :
    solveCollision 0 0 boundsA0 boundsB0 posA0 posB0 unitSquare unitSquare
      ⟨1, 0⟩ ⟨0, 0⟩ ⟨0, 0⟩ ⟨0, 0⟩ = ⟨⟨1, 0⟩, ⟨0, 0⟩, ⟨0, 0⟩, ⟨0, 0⟩⟩ :=
  solveCollision_guards_no_mutation 0 0 boundsA0 boundsB0 posA0 posB0 unitSquare unitSquare
    ⟨1, 0⟩ ⟨0, 0⟩ ⟨0, 0⟩ ⟨0, 0⟩ (Or.inl (by simp [areBothStatic]))

/-- C1: for a non-empty vertex set A, `checkOverlap` reports no overlap
exactly when some edge normal of A (edges wrapping last vertex to first)
is a separating axis — after shifting B's projection interval by
`n · (posB − posA)`, `projB.min ≥ projA.max` or `projB.max ≤ projA.min`.
Otherwise it returns an overlap whose depth is the minimum of
`|projA.max − projB.min|` over A's edge normals and whose direction is an
edge normal of A attaining that minimum.  (The attainment part carries a
float-range hypothesis: some axis must have penetration below
`numeric_limits<float>::max()`, the sentinel the source starts its
running minimum at.) -/
theorem checkOverlap_spec (posA posB : Vec2) (verticesA verticesB : List Vec2)
    (_hA : verticesA ≠ []) :
    (checkOverlap posA posB verticesA verticesB = none ↔
      ∃ n ∈ axes verticesA, separates (posB - posA) verticesA verticesB n) ∧
    (∀ o, checkOverlap posA posB verticesA verticesB = some o →
      (∃ n ∈ axes verticesA, penetration (posB - posA) verticesA verticesB n < floatMax) →
      (∀ m ∈ axes verticesA, o.depth ≤ penetration (posB - posA) verticesA verticesB m) ∧
      (∃ n ∈ axes verticesA, o.direction = n ∧
        o.depth = penetration (posB - posA) verticesA verticesB n)) := by
  refine ⟨checkOverlapAux_eq_none_iff _ verticesA verticesB (axes verticesA) floatMax Vec2.zero,
    fun o ho hrange => ?_⟩
  obtain ⟨n₀, hn₀, hlt⟩ := hrange
  obtain ⟨hdepth, hdisj⟩ :=
    checkOverlapAux_eq_some _ verticesA verticesB (axes verticesA) floatMax Vec2.zero o ho
  have hmin_le : ∀ m ∈ axes verticesA,
      o.depth ≤ penetration (posB - posA) verticesA verticesB m := by
    intro m hm
    rw [hdepth]
    exact foldl_min_le_mem _ _ _ (List.mem_map_of_mem _ hm)
  refine ⟨hmin_le, ?_⟩
  rcases hdisj with ⟨hd, _⟩ | h
  · exfalso
    have h1 := hmin_le n₀ hn₀
    rw [hd] at h1
    exact absurd h1 (not_le.mpr hlt)
  · exact h

/-- Witness for C1, at the §8 unit-square scenario: the probe A→B returns
depth `1/2` with direction `(1,0)`, that depth is a lower bound on every
axis's penetration, and the direction attains it. -/
theorem checkOverlap_spec_witness :
    (∀ m ∈ axes unitSquare, (1 : ℚ)/2 ≤ penetration (posB0 - posA0) unitSquare unitSquare m) ∧
    (∃ n ∈ axes unitSquare, (⟨1, 0⟩ : Vec2) = n ∧
      (1 : ℚ)/2 = penetration (posB0 - posA0) unitSquare unitSquare n) := by
  have haxes : axes unitSquare = [⟨-1, 0⟩, ⟨0, -1⟩, ⟨1, 0⟩, ⟨0, 1⟩] := by
    norm_num [axes, unitSquare, Vec2.sub, Vec2.getNormal, Vec2.zero]
  have hco : checkOverlap posA0 posB0 unitSquare unitSquare = some ⟨1/2, ⟨1, 0⟩⟩ := by
    norm_num [checkOverlap, checkOverlapAux, axes, separates, shiftedProjB, penetration,
      project, projectStep, Vec2.dot, Vec2.sub, Vec2.sub_def, Vec2.getNormal, Vec2.zero,
      posA0, posB0, unitSquare, floatMax, floatLowest, Projection.mk.injEq, abs_of_nonneg,
      abs_of_nonpos]
  have hpen : penetration (posB0 - posA0) unitSquare unitSquare ⟨1, 0⟩ < floatMax := by
    norm_num [penetration, shiftedProjB, project, projectStep, Vec2.dot, Vec2.sub,
      Vec2.sub_def, Vec2.getNormal, Vec2.zero, posA0, posB0, unitSquare, floatMax,
      floatLowest, abs_of_nonneg, abs_of_nonpos]
  exact (checkOverlap_spec posA0 posB0 unitSquare unitSquare (by simp [unitSquare])).2
    ⟨1/2, ⟨1, 0⟩⟩ hco ⟨⟨1, 0⟩, by simp [haxes], hpen⟩

/-- C2: when `solveCollision` reaches the impulse step, the velocities are
updated exactly by `vRel = velocityA − velocityB`,
`j = −(n·vRel)·2/(invMassA + invMassB)`,
`velocityA' = velocityA + n·(j·invMassA)`,
`velocityB' = velocityB − n·(j·invMassB)`, with `n` the selected collision
normal and the restitution factor the fixed constant `2`; no other update
to the velocities occurs. -/
theorem solveCollision_impulse_formula (massInverseA massInverseB : ℚ)
    (boundsA boundsB : Bounds) (posA posB : Vec2) (verticesA verticesB : List Vec2)
    (velocityA velocityB overlapAccumulatorA overlapAccumulatorB : Vec2)
    (overlap1 overlap2 : Overlap)
    (hs : areBothStatic massInverseA massInverseB = false)
    (hb : boundsOverlap boundsA boundsB = true)
    (h1 : checkOverlap posA posB verticesA verticesB = some overlap1)
    (h2 : checkOverlap posB posA verticesB verticesA = some overlap2) :
    (solveCollision massInverseA massInverseB boundsA boundsB posA posB verticesA verticesB
        velocityA velocityB overlapAccumulatorA overlapAccumulatorB).velocityA =
      velocityA + (if overlap1.depth < overlap2.depth then overlap1.direction
          else overlap2.direction).scale
        (-((if overlap1.depth < overlap2.depth then overlap1.direction
            else overlap2.direction).dot (velocityA - velocityB)) * 2 /
          (massInverseA + massInverseB) * massInverseA) ∧
    (solveCollision massInverseA massInverseB boundsA boundsB posA posB verticesA verticesB
        velocityA velocityB overlapAccumulatorA overlapAccumulatorB).velocityB =
      velocityB - (if overlap1.depth < overlap2.depth then overlap1.direction
          else overlap2.direction).scale
        (-((if overlap1.depth < overlap2.depth then overlap1.direction
            else overlap2.direction).dot (velocityA - velocityB)) * 2 /
          (massInverseA + massInverseB) * massInverseB) := by
  rw [solveCollision_hit massInverseA massInverseB boundsA boundsB posA posB
    verticesA verticesB velocityA velocityB overlapAccumulatorA overlapAccumulatorB
    overlap1 overlap2 hs hb h1 h2]
  exact ⟨rfl, rfl⟩

/-- Witness for C2: in the unit-square scenario with `velocityA = (1,0)`,
`velocityB = (0,0)` and both inverse masses `1`, the impulse formula sends
the velocities to `(0,0)` and `(1,0)`. -/
theorem solveCollision_impulse_formula_witness :
    (solveCollision 1 1 boundsA0 boundsB0 posA0 posB0 unitSquare unitSquare
        ⟨1, 0⟩ ⟨0, 0⟩ ⟨0, 0⟩ ⟨0, 0⟩).velocityA = ⟨0, 0⟩ ∧
    (solveCollision 1 1 boundsA0 boundsB0 posA0 posB0 unitSquare unitSquare
        ⟨1, 0⟩ ⟨0, 0⟩ ⟨0, 0⟩ ⟨0, 0⟩).velocityB = ⟨1, 0⟩ := by
  have h := solveCollision_impulse_formula 1 1 boundsA0 boundsB0 posA0 posB0
    unitSquare unitSquare ⟨1, 0⟩ ⟨0, 0⟩ ⟨0, 0⟩ ⟨0, 0⟩ ⟨1/2, ⟨1, 0⟩⟩ ⟨1/2, ⟨-1, 0⟩⟩
    (by simp [areBothStatic]) boundsOverlap_AB_eval checkOverlap_AB_eval checkOverlap_BA_eval
  rw [h.1, h.2]
  norm_num [Vec2.scale, Vec2.dot, Vec2.add_def, Vec2.sub_def]

/-- C3: when both probes report overlap, the resolved depth is the minimum
of the two probe depths, the normal is the direction of the probe with the
smaller depth (the B→A probe's direction on ties), the depth is split in
proportion to each body's inverse mass over the summed inverse mass, the
sign of both shares is flipped when the A→B probe's depth is not the
smaller one, and the body with the larger inverse mass receives the larger
share. -/
theorem solveCollision_depth_normal_split (massInverseA massInverseB : ℚ)
    (boundsA boundsB : Bounds) (posA posB : Vec2) (verticesA verticesB : List Vec2)
    (velocityA velocityB overlapAccumulatorA overlapAccumulatorB : Vec2)
    (overlap1 overlap2 : Overlap)
    (hmA : 0 ≤ massInverseA) (hmB : 0 ≤ massInverseB)
    (hs : areBothStatic massInverseA massInverseB = false)
    (hb : boundsOverlap boundsA boundsB = true)
    (h1 : checkOverlap posA posB verticesA verticesB = some overlap1)
    (h2 : checkOverlap posB posA verticesB verticesA = some overlap2) :
    (solveCollision massInverseA massInverseB boundsA boundsB posA posB verticesA verticesB
        velocityA velocityB overlapAccumulatorA overlapAccumulatorB).overlapAccumulatorA =
      overlapAccumulatorA - (if overlap1.depth < overlap2.depth then overlap1.direction
          else overlap2.direction).scale
        ((if overlap2.depth ≤ overlap1.depth then (-1 : ℚ) else 1) *
          (min overlap1.depth overlap2.depth * massInverseA /
            (massInverseA + massInverseB))) ∧
    (solveCollision massInverseA massInverseB boundsA boundsB posA posB verticesA verticesB
        velocityA velocityB overlapAccumulatorA overlapAccumulatorB).overlapAccumulatorB =
      overlapAccumulatorB + (if overlap1.depth < overlap2.depth then overlap1.direction
          else overlap2.direction).scale
        ((if overlap2.depth ≤ overlap1.depth then (-1 : ℚ) else 1) *
          (min overlap1.depth overlap2.depth * massInverseB /
            (massInverseA + massInverseB))) ∧
    (massInverseB ≤ massInverseA →
      min overlap1.depth overlap2.depth * massInverseB / (massInverseA + massInverseB) ≤
        min overlap1.depth overlap2.depth * massInverseA / (massInverseA + massInverseB)) := by
  have hsum : 0 < massInverseA + massInverseB := massSum_pos _ _ hmA hmB hs
  rw [solveCollision_hit massInverseA massInverseB boundsA boundsB posA posB
    verticesA verticesB velocityA velocityB overlapAccumulatorA overlapAccumulatorB
    overlap1 overlap2 hs hb h1 h2]
  refine ⟨?_, ?_, ?_⟩
  · simp only [ge_iff_le, Vec2.scale, Vec2.sub_def, Vec2.mk.injEq]
    split_ifs <;> exact ⟨by ring, by ring⟩
  · have hshare : min overlap1.depth overlap2.depth -
        min overlap1.depth overlap2.depth * massInverseA / (massInverseA + massInverseB) =
        min overlap1.depth overlap2.depth * massInverseB / (massInverseA + massInverseB) := by
      rw [eq_div_iff hsum.ne', sub_mul, div_mul_cancel₀ _ hsum.ne']
      ring
    simp only [ge_iff_le, Vec2.scale, Vec2.add_def, Vec2.mk.injEq]
    split_ifs <;> exact ⟨by rw [← hshare]; ring, by rw [← hshare]; ring⟩
  · intro hBA
    have hd : 0 ≤ min overlap1.depth overlap2.depth :=
      le_min (checkOverlap_depth_nonneg _ _ _ _ _ h1) (checkOverlap_depth_nonneg _ _ _ _ _ h2)
    rw [div_le_div_iff₀ hsum hsum]
    exact mul_le_mul_of_nonneg_right (mul_le_mul_of_nonneg_left hBA hd) hsum.le

/-- Witness for C3: in the unit-square scenario the resolved depth is
`1/2`, the B→A probe wins the tie, and the accumulators receive
`(−1/4, 0)` and `(1/4, 0)`. -/
theorem solveCollision_depth_normal_split_witness :
    (solveCollision 1 1 boundsA0 boundsB0 posA0 posB0 unitSquare unitSquare
        ⟨0, 0⟩ ⟨0, 0⟩ ⟨0, 0⟩ ⟨0, 0⟩).overlapAccumulatorA = ⟨-(1/4), 0⟩ ∧
    (solveCollision 1 1 boundsA0 boundsB0 posA0 posB0 unitSquare unitSquare
        ⟨0, 0⟩ ⟨0, 0⟩ ⟨0, 0⟩ ⟨0, 0⟩).overlapAccumulatorB = ⟨1/4, 0⟩ := by
  have h := solveCollision_depth_normal_split 1 1 boundsA0 boundsB0 posA0 posB0
    unitSquare unitSquare ⟨0, 0⟩ ⟨0, 0⟩ ⟨0, 0⟩ ⟨0, 0⟩ ⟨1/2, ⟨1, 0⟩⟩ ⟨1/2, ⟨-1, 0⟩⟩
    (by norm_num) (by norm_num) (by simp [areBothStatic]) boundsOverlap_AB_eval
    checkOverlap_AB_eval checkOverlap_BA_eval
  rw [h.1, h.2.1]
  norm_num [Vec2.scale, Vec2.add_def, Vec2.sub_def]

/-- C10: a body with inverse mass exactly zero (paired with a movable
body) is never moved or accelerated: its velocity delta `n·(j·0)` and its
positional-correction share `d·0/(0+other)` both vanish, so its velocity
and overlap accumulator are returned unchanged. -/
theorem solveCollision_static_body_untouched (massInverseA massInverseB : ℚ)
    (boundsA boundsB : Bounds) (posA posB : Vec2) (verticesA verticesB : List Vec2)
    (velocityA velocityB overlapAccumulatorA overlapAccumulatorB : Vec2) :
    (massInverseA = 0 → 0 < massInverseB →
      (solveCollision massInverseA massInverseB boundsA boundsB posA posB verticesA verticesB
          velocityA velocityB overlapAccumulatorA overlapAccumulatorB).velocityA = velocityA ∧
      (solveCollision massInverseA massInverseB boundsA boundsB posA posB verticesA verticesB
          velocityA velocityB overlapAccumulatorA overlapAccumulatorB).overlapAccumulatorA =
        overlapAccumulatorA) ∧
    (massInverseB = 0 → 0 < massInverseA →
      (solveCollision massInverseA massInverseB boundsA boundsB posA posB verticesA verticesB
          velocityA velocityB overlapAccumulatorA overlapAccumulatorB).velocityB = velocityB ∧
      (solveCollision massInverseA massInverseB boundsA boundsB posA posB verticesA verticesB
          velocityA velocityB overlapAccumulatorA overlapAccumulatorB).overlapAccumulatorB =
        overlapAccumulatorB) := by
  by_cases hs : areBothStatic massInverseA massInverseB = true
  · rw [solveCollision_miss _ _ _ _ _ _ _ _ _ _ _ _ (Or.inl hs)]
    exact ⟨fun _ _ => ⟨rfl, rfl⟩, fun _ _ => ⟨rfl, rfl⟩⟩
  · have hs' : areBothStatic massInverseA massInverseB = false := by simpa using hs
    by_cases hb : boundsOverlap boundsA boundsB = true
    · rcases h1 : checkOverlap posA posB verticesA verticesB with _ | o1
      · rw [solveCollision_miss _ _ _ _ _ _ _ _ _ _ _ _ (Or.inr (Or.inr (Or.inl h1)))]
        exact ⟨fun _ _ => ⟨rfl, rfl⟩, fun _ _ => ⟨rfl, rfl⟩⟩
      · rcases h2 : checkOverlap posB posA verticesB verticesA with _ | o2
        · rw [solveCollision_miss _ _ _ _ _ _ _ _ _ _ _ _ (Or.inr (Or.inr (Or.inr h2)))]
          exact ⟨fun _ _ => ⟨rfl, rfl⟩, fun _ _ => ⟨rfl, rfl⟩⟩
        · rw [solveCollision_hit _ _ _ _ _ _ _ _ _ _ _ _ o1 o2 hs' hb h1 h2]
          constructor
          · rintro rfl hBpos
            constructor
            · simp [Vec2.scale, Vec2.add_def]
            · simp [Vec2.scale, Vec2.sub_def]
          · rintro rfl hApos
            constructor
            · simp [Vec2.scale, Vec2.sub_def]
            · have hKey : min o1.depth o2.depth -
                  min o1.depth o2.depth * massInverseA / massInverseA = 0 := by
                rw [mul_div_cancel_right₀ _ (ne_of_gt hApos)]
                exact sub_self _
              simp [Vec2.scale, Vec2.add_def, hKey]
    · have hb' : boundsOverlap boundsA boundsB = false := by simpa using hb
      rw [solveCollision_miss _ _ _ _ _ _ _ _ _ _ _ _ (Or.inr (Or.inl hb'))]
      exact ⟨fun _ _ => ⟨rfl, rfl⟩, fun _ _ => ⟨rfl, rfl⟩⟩

/-- Witness for C10: against a static wall (`massInverseB = 0`), body B's
velocity and accumulator come back unchanged. -/
theorem solveCollision_static_body_untouched_witness :
    (solveCollision 1 0 boundsA0 boundsB0 posA0 posB0 unitSquare unitSquare
        ⟨1, 0⟩ ⟨0, 0⟩ ⟨0, 0⟩ ⟨0, 0⟩).velocityB = ⟨0, 0⟩ ∧
    (solveCollision 1 0 boundsA0 boundsB0 posA0 posB0 unitSquare unitSquare
        ⟨1, 0⟩ ⟨0, 0⟩ ⟨0, 0⟩ ⟨0, 0⟩).overlapAccumulatorB = ⟨0, 0⟩ :=
  (solveCollision_static_body_untouched 1 0 boundsA0 boundsB0 posA0 posB0
    unitSquare unitSquare ⟨1, 0⟩ ⟨0, 0⟩ ⟨0, 0⟩ ⟨0, 0⟩).2 rfl one_pos

/-- Each call's contribution to an overlap accumulator is independent of
the accumulator's prior value (the accumulator is never read), and the
velocity outputs do not depend on the accumulator inputs at all. -/
theorem solveCollision_acc_decomp (massInverseA massInverseB : ℚ)
    (boundsA boundsB : Bounds) (posA posB : Vec2) (verticesA verticesB : List Vec2)
    (velocityA velocityB overlapAccumulatorA overlapAccumulatorB : Vec2) :
    (solveCollision massInverseA massInverseB boundsA boundsB posA posB verticesA verticesB
        velocityA velocityB overlapAccumulatorA overlapAccumulatorB).overlapAccumulatorA =
      overlapAccumulatorA +
        (solveCollision massInverseA massInverseB boundsA boundsB posA posB verticesA verticesB
          velocityA velocityB Vec2.zero Vec2.zero).overlapAccumulatorA ∧
    (solveCollision massInverseA massInverseB boundsA boundsB posA posB verticesA verticesB
        velocityA velocityB overlapAccumulatorA overlapAccumulatorB).overlapAccumulatorB =
      overlapAccumulatorB +
        (solveCollision massInverseA massInverseB boundsA boundsB posA posB verticesA verticesB
          velocityA velocityB Vec2.zero Vec2.zero).overlapAccumulatorB ∧
    (solveCollision massInverseA massInverseB boundsA boundsB posA posB verticesA verticesB
        velocityA velocityB overlapAccumulatorA overlapAccumulatorB).velocityA =
      (solveCollision massInverseA massInverseB boundsA boundsB posA posB verticesA verticesB
        velocityA velocityB Vec2.zero Vec2.zero).velocityA ∧
    (solveCollision massInverseA massInverseB boundsA boundsB posA posB verticesA verticesB
        velocityA velocityB overlapAccumulatorA overlapAccumulatorB).velocityB =
      (solveCollision massInverseA massInverseB boundsA boundsB posA posB verticesA verticesB
        velocityA velocityB Vec2.zero Vec2.zero).velocityB := by
  by_cases hs : areBothStatic massInverseA massInverseB = true
  · rw [solveCollision_miss _ _ _ _ _ _ _ _ _ _ _ _ (Or.inl hs),
      solveCollision_miss _ _ _ _ _ _ _ _ _ _ _ _ (Or.inl hs)]
    exact ⟨by simp [Vec2.add_def, Vec2.zero], by simp [Vec2.add_def, Vec2.zero], rfl, rfl⟩
  · have hs' : areBothStatic massInverseA massInverseB = false := by simpa using hs
    by_cases hb : boundsOverlap boundsA boundsB = true
    · rcases h1 : checkOverlap posA posB verticesA verticesB with _ | o1
      · rw [solveCollision_miss _ _ _ _ _ _ _ _ _ _ _ _ (Or.inr (Or.inr (Or.inl h1))),
          solveCollision_miss _ _ _ _ _ _ _ _ _ _ _ _ (Or.inr (Or.inr (Or.inl h1)))]
        exact ⟨by simp [Vec2.add_def, Vec2.zero], by simp [Vec2.add_def, Vec2.zero], rfl, rfl⟩
      · rcases h2 : checkOverlap posB posA verticesB verticesA with _ | o2
        · rw [solveCollision_miss _ _ _ _ _ _ _ _ _ _ _ _ (Or.inr (Or.inr (Or.inr h2))),
            solveCollision_miss _ _ _ _ _ _ _ _ _ _ _ _ (Or.inr (Or.inr (Or.inr h2)))]
          exact ⟨by simp [Vec2.add_def, Vec2.zero], by simp [Vec2.add_def, Vec2.zero], rfl, rfl⟩
        · rw [solveCollision_hit _ _ _ _ _ _ _ _ _ _ _ _ o1 o2 hs' hb h1 h2,
            solveCollision_hit _ _ _ _ _ _ _ _ _ _ _ _ o1 o2 hs' hb h1 h2]
          refine ⟨?_, ?_, rfl, rfl⟩
          · simp only [Vec2.scale, Vec2.sub_def, Vec2.add_def, Vec2.zero, Vec2.mk.injEq]
            exact ⟨by ring, by ring⟩
          · simp only [Vec2.scale, Vec2.sub_def, Vec2.add_def, Vec2.zero, Vec2.mk.injEq]
            exact ⟨by ring, by ring⟩
    · have hb' : boundsOverlap boundsA boundsB = false := by simpa using hb
      rw [solveCollision_miss _ _ _ _ _ _ _ _ _ _ _ _ (Or.inr (Or.inl hb')),
        solveCollision_miss _ _ _ _ _ _ _ _ _ _ _ _ (Or.inr (Or.inl hb'))]
      exact ⟨by simp [Vec2.add_def, Vec2.zero], by simp [Vec2.add_def, Vec2.zero], rfl, rfl⟩

/-- C7: the overlap accumulators are strictly additive.  Each call adds to
each accumulator a delta that does not depend on the accumulator's prior
value (the accumulator is never read — in particular the velocity outputs
are independent of it); two sequential calls threading the same body's
accumulator through the A slot leave it at its initial value plus the sum
of the two calls' individual contributions. -/
theorem solveCollision_accumulator_additive (massInverseA massInverseB : ℚ)
    (boundsA boundsB : Bounds) (posA posB : Vec2) (verticesA verticesB : List Vec2)
    (velocityA velocityB : Vec2) :
    (∀ overlapAccumulatorA overlapAccumulatorB,
      (solveCollision massInverseA massInverseB boundsA boundsB posA posB verticesA verticesB
          velocityA velocityB overlapAccumulatorA overlapAccumulatorB).overlapAccumulatorA =
        overlapAccumulatorA +
          (solveCollision massInverseA massInverseB boundsA boundsB posA posB verticesA
            verticesB velocityA velocityB Vec2.zero Vec2.zero).overlapAccumulatorA ∧
      (solveCollision massInverseA massInverseB boundsA boundsB posA posB verticesA verticesB
          velocityA velocityB overlapAccumulatorA overlapAccumulatorB).overlapAccumulatorB =
        overlapAccumulatorB +
          (solveCollision massInverseA massInverseB boundsA boundsB posA posB verticesA
            verticesB velocityA velocityB Vec2.zero Vec2.zero).overlapAccumulatorB ∧
      (solveCollision massInverseA massInverseB boundsA boundsB posA posB verticesA verticesB
          velocityA velocityB overlapAccumulatorA overlapAccumulatorB).velocityA =
        (solveCollision massInverseA massInverseB boundsA boundsB posA posB verticesA
          verticesB velocityA velocityB Vec2.zero Vec2.zero).velocityA ∧
      (solveCollision massInverseA massInverseB boundsA boundsB posA posB verticesA verticesB
          velocityA velocityB overlapAccumulatorA overlapAccumulatorB).velocityB =
        (solveCollision massInverseA massInverseB boundsA boundsB posA posB verticesA
          verticesB velocityA velocityB Vec2.zero Vec2.zero).velocityB) ∧
    (∀ overlapAccumulatorA overlapAccumulatorB
       (massInverseA2 massInverseB2 : ℚ) (boundsA2 boundsB2 : Bounds) (posA2 posB2 : Vec2)
       (verticesA2 verticesB2 : List Vec2) (velocityA2 velocityB2 overlapAccumulatorB2 : Vec2),
      (solveCollision massInverseA2 massInverseB2 boundsA2 boundsB2 posA2 posB2 verticesA2
          verticesB2 velocityA2 velocityB2
          ((solveCollision massInverseA massInverseB boundsA boundsB posA posB verticesA
            verticesB velocityA velocityB overlapAccumulatorA
            overlapAccumulatorB).overlapAccumulatorA)
          overlapAccumulatorB2).overlapAccumulatorA =
        overlapAccumulatorA +
          (solveCollision massInverseA massInverseB boundsA boundsB posA posB verticesA
            verticesB velocityA velocityB Vec2.zero Vec2.zero).overlapAccumulatorA +
          (solveCollision massInverseA2 massInverseB2 boundsA2 boundsB2 posA2 posB2 verticesA2
            verticesB2 velocityA2 velocityB2 Vec2.zero Vec2.zero).overlapAccumulatorA) := by
  constructor
  · intro accA accB
    exact solveCollision_acc_decomp massInverseA massInverseB boundsA boundsB posA posB
      verticesA verticesB velocityA velocityB accA accB
  · intro accA accB mA2 mB2 bA2 bB2 pA2 pB2 vsA2 vsB2 velA2 velB2 accB2
    rw [(solveCollision_acc_decomp mA2 mB2 bA2 bB2 pA2 pB2 vsA2 vsB2 velA2 velB2 _ accB2).1,
      (solveCollision_acc_decomp massInverseA massInverseB boundsA boundsB posA posB
        verticesA verticesB velocityA velocityB accA accB).1]

/-- Full evaluation of the §8 zero-velocity unit-square scenario. -/
theorem solveCollision_scenario_eval :
    solveCollision 1 1 boundsA0 boundsB0 posA0 posB0 unitSquare unitSquare
        ⟨0, 0⟩ ⟨0, 0⟩ ⟨0, 0⟩ ⟨0, 0⟩ = ⟨⟨0, 0⟩, ⟨0, 0⟩, ⟨-(1/4), 0⟩, ⟨1/4, 0⟩⟩ := by
  rw [solveCollision_hit 1 1 boundsA0 boundsB0 posA0 posB0 unitSquare unitSquare
    ⟨0, 0⟩ ⟨0, 0⟩ ⟨0, 0⟩ ⟨0, 0⟩ ⟨1/2, ⟨1, 0⟩⟩ ⟨1/2, ⟨-1, 0⟩⟩ (by simp [areBothStatic])
    boundsOverlap_AB_eval checkOverlap_AB_eval checkOverlap_BA_eval]
  norm_num [Vec2.scale, Vec2.dot, Vec2.add_def, Vec2.sub_def, SolveResult.mk.injEq,
    Vec2.mk.injEq]

/-- Counterexample for C8: in the §8 scenario the accumulator corrections
have magnitude `1/4`, not `1/8` — A's accumulator receives `(−1/4, 0)`,
which is neither `(1/8, 0)` nor `(−1/8, 0)`. -/
theorem solveCollision_scenario_not_eighth :
    (solveCollision 1 1 boundsA0 boundsB0 posA0 posB0 unitSquare unitSquare
        ⟨0, 0⟩ ⟨0, 0⟩ ⟨0, 0⟩ ⟨0, 0⟩).overlapAccumulatorA = ⟨-(1/4), 0⟩ ∧
    (solveCollision 1 1 boundsA0 boundsB0 posA0 posB0 unitSquare unitSquare
        ⟨0, 0⟩ ⟨0, 0⟩ ⟨0, 0⟩ ⟨0, 0⟩).overlapAccumulatorA ≠ ⟨-(1/8), 0⟩ ∧
    (solveCollision 1 1 boundsA0 boundsB0 posA0 posB0 unitSquare unitSquare
        ⟨0, 0⟩ ⟨0, 0⟩ ⟨0, 0⟩ ⟨0, 0⟩).overlapAccumulatorA ≠ ⟨1/8, 0⟩ := by
  rw [solveCollision_scenario_eval]
  norm_num [Vec2.mk.injEq]

/-- C8 (amended): in the §8 scenario both probes detect depth `1/2` with
normals along the x-axis, and `solveCollision` adds corrections of equal
magnitude `1/4` (not `1/8`) in opposite x-directions to the two
accumulators while leaving both velocities at zero. -/
theorem solveCollision_scenario_result :
    checkOverlap posA0 posB0 unitSquare unitSquare = some ⟨1/2, ⟨1, 0⟩⟩ ∧
    checkOverlap posB0 posA0 unitSquare unitSquare = some ⟨1/2, ⟨-1, 0⟩⟩ ∧
    solveCollision 1 1 boundsA0 boundsB0 posA0 posB0 unitSquare unitSquare
        ⟨0, 0⟩ ⟨0, 0⟩ ⟨0, 0⟩ ⟨0, 0⟩ = ⟨⟨0, 0⟩, ⟨0, 0⟩, ⟨-(1/4), 0⟩, ⟨1/4, 0⟩⟩ :=
  ⟨checkOverlap_AB_eval, checkOverlap_BA_eval, solveCollision_scenario_eval⟩

theorem Vec2.neg_def (a : Vec2) : -a = ⟨-a.x, -a.y⟩ := rfl

/-- Conservation algebra of the impulse update: if the axis is a unit
vector and both inverse masses are positive, the update
`velocityA += n·(j·invMassA)`, `velocityB −= n·(j·invMassB)` with
`j = −(n·(velocityA − velocityB))·2/(invMassA + invMassB)` preserves total
momentum and total kinetic energy. -/
theorem impulse_conserves (massInverseA massInverseB : ℚ)
    (hA : 0 < massInverseA) (hB : 0 < massInverseB) (n velocityA velocityB : Vec2)
    (hn : n.dot n = 1) :
    ((velocityA + n.scale (-(n.dot (velocityA - velocityB)) * 2 /
          (massInverseA + massInverseB) * massInverseA)).scale massInverseA⁻¹ +
      (velocityB - n.scale (-(n.dot (velocityA - velocityB)) * 2 /
          (massInverseA + massInverseB) * massInverseB)).scale massInverseB⁻¹ =
      velocityA.scale massInverseA⁻¹ + velocityB.scale massInverseB⁻¹) ∧
    (((velocityA + n.scale (-(n.dot (velocityA - velocityB)) * 2 /
          (massInverseA + massInverseB) * massInverseA)).dot
        (velocityA + n.scale (-(n.dot (velocityA - velocityB)) * 2 /
          (massInverseA + massInverseB) * massInverseA))) * massInverseA⁻¹ / 2 +
      ((velocityB - n.scale (-(n.dot (velocityA - velocityB)) * 2 /
          (massInverseA + massInverseB) * massInverseB)).dot
        (velocityB - n.scale (-(n.dot (velocityA - velocityB)) * 2 /
          (massInverseA + massInverseB) * massInverseB))) * massInverseB⁻¹ / 2 =
      (velocityA.dot velocityA) * massInverseA⁻¹ / 2 +
        (velocityB.dot velocityB) * massInverseB⁻¹ / 2) := by
  have hsum : (0 : ℚ) < massInverseA + massInverseB := by linarith
  have hsne : massInverseA + massInverseB ≠ 0 := hsum.ne'
  obtain ⟨nx, ny⟩ := n
  obtain ⟨ax, ay⟩ := velocityA
  obtain ⟨bx, b2⟩ := velocityB
  simp only [Vec2.dot, Vec2.scale, Vec2.add_def, Vec2.sub_def, Vec2.mk.injEq] at hn ⊢
  generalize hj : -(nx * (ax - bx) + ny * (ay - b2)) * 2 / (massInverseA + massInverseB) = j
  have hjs : j * (massInverseA + massInverseB) = -(nx * (ax - bx) + ny * (ay - b2)) * 2 := by
    rw [← hj, div_mul_cancel₀ _ hsne]
  refine ⟨⟨?_, ?_⟩, ?_⟩
  · field_simp
    ring
  · field_simp
    ring
  · field_simp
    linear_combination (2 * massInverseA * massInverseB * j * (nx * nx + ny * ny)) * hjs +
      (-4 * massInverseA * massInverseB * j * (nx * (ax - bx) + ny * (ay - b2))) * hn

/-- C5: when `solveCollision` applies an impulse between two bodies of
positive inverse mass, total momentum (each velocity scaled by the body's
mass, i.e. by the reciprocal of its inverse mass) and total kinetic energy
are exactly preserved over the exact rational arithmetic of this
embedding.  The energy part assumes the selected collision normal is a
unit vector — spec-modelled: `Vec2::getNormal` is external to this core
and §4.2 of the spec treats the axes handed to `project` as unit
vectors. -/
theorem solveCollision_conserves_momentum_energy (massInverseA massInverseB : ℚ)
    (boundsA boundsB : Bounds) (posA posB : Vec2) (verticesA verticesB : List Vec2)
    (velocityA velocityB overlapAccumulatorA overlapAccumulatorB : Vec2)
    (overlap1 overlap2 : Overlap)
    (hA : 0 < massInverseA) (hB : 0 < massInverseB)
    (hb : boundsOverlap boundsA boundsB = true)
    (h1 : checkOverlap posA posB verticesA verticesB = some overlap1)
    (h2 : checkOverlap posB posA verticesB verticesA = some overlap2)
    (hn : (if overlap1.depth < overlap2.depth then overlap1.direction
        else overlap2.direction).dot
      (if overlap1.depth < overlap2.depth then overlap1.direction
        else overlap2.direction) = 1) :
    ((solveCollision massInverseA massInverseB boundsA boundsB posA posB verticesA verticesB
          velocityA velocityB overlapAccumulatorA
          overlapAccumulatorB).velocityA.scale massInverseA⁻¹ +
      (solveCollision massInverseA massInverseB boundsA boundsB posA posB verticesA verticesB
          velocityA velocityB overlapAccumulatorA
          overlapAccumulatorB).velocityB.scale massInverseB⁻¹ =
      velocityA.scale massInverseA⁻¹ + velocityB.scale massInverseB⁻¹) ∧
    (((solveCollision massInverseA massInverseB boundsA boundsB posA posB verticesA verticesB
          velocityA velocityB overlapAccumulatorA overlapAccumulatorB).velocityA.dot
        (solveCollision massInverseA massInverseB boundsA boundsB posA posB verticesA
          verticesB velocityA velocityB overlapAccumulatorA
          overlapAccumulatorB).velocityA) * massInverseA⁻¹ / 2 +
      ((solveCollision massInverseA massInverseB boundsA boundsB posA posB verticesA verticesB
          velocityA velocityB overlapAccumulatorA overlapAccumulatorB).velocityB.dot
        (solveCollision massInverseA massInverseB boundsA boundsB posA posB verticesA
          verticesB velocityA velocityB overlapAccumulatorA
          overlapAccumulatorB).velocityB) * massInverseB⁻¹ / 2 =
      (velocityA.dot velocityA) * massInverseA⁻¹ / 2 +
        (velocityB.dot velocityB) * massInverseB⁻¹ / 2) := by
  have hs : areBothStatic massInverseA massInverseB = false :=
    areBothStatic_eq_false_left _ _ hA.ne'
  rw [solveCollision_hit _ _ _ _ _ _ _ _ _ _ _ _ overlap1 overlap2 hs hb h1 h2]
  exact impulse_conserves massInverseA massInverseB hA hB _ velocityA velocityB hn

/-- Witness for C5: in the unit-square scenario with `velocityA = (1,0)`
and both inverse masses `1`, momentum and kinetic energy are unchanged by
the call. -/
theorem solveCollision_conserves_momentum_energy_witness :
    ((solveCollision 1 1 boundsA0 boundsB0 posA0 posB0 unitSquare unitSquare
          ⟨1, 0⟩ ⟨0, 0⟩ ⟨0, 0⟩ ⟨0, 0⟩).velocityA.scale (1 : ℚ)⁻¹ +
      (solveCollision 1 1 boundsA0 boundsB0 posA0 posB0 unitSquare unitSquare
          ⟨1, 0⟩ ⟨0, 0⟩ ⟨0, 0⟩ ⟨0, 0⟩).velocityB.scale (1 : ℚ)⁻¹ =
      (⟨1, 0⟩ : Vec2).scale (1 : ℚ)⁻¹ + (⟨0, 0⟩ : Vec2).scale (1 : ℚ)⁻¹) ∧
    (((solveCollision 1 1 boundsA0 boundsB0 posA0 posB0 unitSquare unitSquare
          ⟨1, 0⟩ ⟨0, 0⟩ ⟨0, 0⟩ ⟨0, 0⟩).velocityA.dot
        (solveCollision 1 1 boundsA0 boundsB0 posA0 posB0 unitSquare unitSquare
          ⟨1, 0⟩ ⟨0, 0⟩ ⟨0, 0⟩ ⟨0, 0⟩).velocityA) * (1 : ℚ)⁻¹ / 2 +
      ((solveCollision 1 1 boundsA0 boundsB0 posA0 posB0 unitSquare unitSquare
          ⟨1, 0⟩ ⟨0, 0⟩ ⟨0, 0⟩ ⟨0, 0⟩).velocityB.dot
        (solveCollision 1 1 boundsA0 boundsB0 posA0 posB0 unitSquare unitSquare
          ⟨1, 0⟩ ⟨0, 0⟩ ⟨0, 0⟩ ⟨0, 0⟩).velocityB) * (1 : ℚ)⁻¹ / 2 =
      ((⟨1, 0⟩ : Vec2).dot ⟨1, 0⟩) * (1 : ℚ)⁻¹ / 2 +
        ((⟨0, 0⟩ : Vec2).dot ⟨0, 0⟩) * (1 : ℚ)⁻¹ / 2) :=
  solveCollision_conserves_momentum_energy 1 1 boundsA0 boundsB0 posA0 posB0
    unitSquare unitSquare ⟨1, 0⟩ ⟨0, 0⟩ ⟨0, 0⟩ ⟨0, 0⟩ ⟨1/2, ⟨1, 0⟩⟩ ⟨1/2, ⟨-1, 0⟩⟩
    one_pos one_pos boundsOverlap_AB_eval checkOverlap_AB_eval checkOverlap_BA_eval
    (by norm_num [Vec2.dot])

/-- `areBothStatic` is symmetric in its two arguments. -/
theorem areBothStatic_comm (massInverseA massInverseB : ℚ) :
    areBothStatic massInverseB massInverseA = areBothStatic massInverseA massInverseB := by
  simp [areBothStatic, Bool.and_comm]

/-- The broad check is symmetric in its two boxes. -/
theorem boundsOverlap_comm (boundsA boundsB : Bounds) :
    boundsOverlap boundsB boundsA = boundsOverlap boundsA boundsB := by
  rcases h : boundsOverlap boundsA boundsB with _ | _
  · rw [Bool.eq_false_iff]
    intro hc
    have hcc := (boundsOverlap_iff boundsB boundsA).mp hc
    have hab : boundsOverlap boundsA boundsB = true :=
      (boundsOverlap_iff boundsA boundsB).mpr ⟨hcc.2.1, hcc.1, hcc.2.2.2, hcc.2.2.1⟩
    rw [h] at hab
    cases hab
  · have hcc := (boundsOverlap_iff boundsA boundsB).mp h
    exact (boundsOverlap_iff boundsB boundsA).mpr ⟨hcc.2.1, hcc.1, hcc.2.2.2, hcc.2.2.1⟩

/-- C6 (amended): calling `solveCollision` with the two bodies' argument
lists swapped produces, for each body, exactly the same new velocity and
the same new accumulator as the unswapped call — identical per-body
deltas, not opposite ones — provided the two probes do not tie with
non-opposite directions (on an exact tie the code picks the other probe's
direction, so symmetry needs the two probe directions to be opposite).
Inverse masses are assumed nonnegative as §6 of the spec requires. -/
theorem solveCollision_swap_per_body (massInverseA massInverseB : ℚ)
    (boundsA boundsB : Bounds) (posA posB : Vec2) (verticesA verticesB : List Vec2)
    (velocityA velocityB overlapAccumulatorA overlapAccumulatorB : Vec2)
    (hmA : 0 ≤ massInverseA) (hmB : 0 ≤ massInverseB)
    (htie : ∀ overlap1 overlap2 : Overlap,
      checkOverlap posA posB verticesA verticesB = some overlap1 →
      checkOverlap posB posA verticesB verticesA = some overlap2 →
      overlap1.depth ≠ overlap2.depth ∨ overlap1.direction = -overlap2.direction) :
    (solveCollision massInverseB massInverseA boundsB boundsA posB posA verticesB verticesA
        velocityB velocityA overlapAccumulatorB overlapAccumulatorA).velocityA =
      (solveCollision massInverseA massInverseB boundsA boundsB posA posB verticesA verticesB
        velocityA velocityB overlapAccumulatorA overlapAccumulatorB).velocityB ∧
    (solveCollision massInverseB massInverseA boundsB boundsA posB posA verticesB verticesA
        velocityB velocityA overlapAccumulatorB overlapAccumulatorA).velocityB =
      (solveCollision massInverseA massInverseB boundsA boundsB posA posB verticesA verticesB
        velocityA velocityB overlapAccumulatorA overlapAccumulatorB).velocityA ∧
    (solveCollision massInverseB massInverseA boundsB boundsA posB posA verticesB verticesA
        velocityB velocityA overlapAccumulatorB overlapAccumulatorA).overlapAccumulatorA =
      (solveCollision massInverseA massInverseB boundsA boundsB posA posB verticesA verticesB
        velocityA velocityB overlapAccumulatorA overlapAccumulatorB).overlapAccumulatorB ∧
    (solveCollision massInverseB massInverseA boundsB boundsA posB posA verticesB verticesA
        velocityB velocityA overlapAccumulatorB overlapAccumulatorA).overlapAccumulatorB =
      (solveCollision massInverseA massInverseB boundsA boundsB posA posB verticesA verticesB
        velocityA velocityB overlapAccumulatorA overlapAccumulatorB).overlapAccumulatorA := by
  by_cases hs : areBothStatic massInverseA massInverseB = true
  · have hs2 : areBothStatic massInverseB massInverseA = true := by
      rw [areBothStatic_comm]; exact hs
    rw [solveCollision_miss _ _ _ _ _ _ _ _ _ _ _ _ (Or.inl hs2),
      solveCollision_miss _ _ _ _ _ _ _ _ _ _ _ _ (Or.inl hs)]
    exact ⟨rfl, rfl, rfl, rfl⟩
  · have hs1 : areBothStatic massInverseA massInverseB = false := by simpa using hs
    have hs2 : areBothStatic massInverseB massInverseA = false := by
      rw [areBothStatic_comm]; exact hs1
    by_cases hb : boundsOverlap boundsA boundsB = true
    · have hb2 : boundsOverlap boundsB boundsA = true := by
        rw [boundsOverlap_comm]; exact hb
      rcases h1 : checkOverlap posA posB verticesA verticesB with _ | o1
      · rw [solveCollision_miss _ _ _ _ _ _ _ _ _ _ _ _ (Or.inr (Or.inr (Or.inr h1))),
          solveCollision_miss _ _ _ _ _ _ _ _ _ _ _ _ (Or.inr (Or.inr (Or.inl h1)))]
        exact ⟨rfl, rfl, rfl, rfl⟩
      · rcases h2 : checkOverlap posB posA verticesB verticesA with _ | o2
        · rw [solveCollision_miss _ _ _ _ _ _ _ _ _ _ _ _ (Or.inr (Or.inr (Or.inl h2))),
            solveCollision_miss _ _ _ _ _ _ _ _ _ _ _ _ (Or.inr (Or.inr (Or.inr h2)))]
          exact ⟨rfl, rfl, rfl, rfl⟩
        · have hsum := massSum_pos _ _ hmA hmB hs1
          have hsne : massInverseA + massInverseB ≠ 0 := hsum.ne'
          have hshare : min o1.depth o2.depth -
              min o1.depth o2.depth * massInverseA / (massInverseA + massInverseB) =
              min o1.depth o2.depth * massInverseB / (massInverseA + massInverseB) := by
            rw [eq_div_iff hsne, sub_mul, div_mul_cancel₀ _ hsne]
            ring
          have hshareA : min o1.depth o2.depth -
              min o1.depth o2.depth * massInverseB / (massInverseA + massInverseB) =
              min o1.depth o2.depth * massInverseA / (massInverseA + massInverseB) := by
            rw [eq_div_iff hsne, sub_mul, div_mul_cancel₀ _ hsne]
            ring
          rw [solveCollision_hit massInverseB massInverseA boundsB boundsA posB posA
              verticesB verticesA velocityB velocityA overlapAccumulatorB
              overlapAccumulatorA o2 o1 hs2 hb2 h2 h1,
            solveCollision_hit massInverseA massInverseB boundsA boundsB posA posB
              verticesA verticesB velocityA velocityB overlapAccumulatorA
              overlapAccumulatorB o1 o2 hs1 hb h1 h2]
          rcases lt_trichotomy o1.depth o2.depth with hlt | heq | hgt
          · simp only [ge_iff_le, if_pos hlt, if_neg (not_lt.mpr hlt.le), if_pos hlt.le,
              if_neg (not_le.mpr hlt), add_comm massInverseB massInverseA,
              min_comm o2.depth o1.depth, hshare, hshareA, Vec2.scale, Vec2.dot,
              Vec2.add_def, Vec2.sub_def, Vec2.mk.injEq]
            exact ⟨⟨by ring, by ring⟩, ⟨by ring, by ring⟩, ⟨by ring, by ring⟩,
              ⟨by ring, by ring⟩⟩
          · rcases htie o1 o2 h1 h2 with hne | hdir
            · exact absurd heq hne
            · simp only [ge_iff_le, if_neg (not_lt.mpr (le_of_eq heq)),
                if_neg (not_lt.mpr (ge_of_eq heq)), if_pos (le_of_eq heq),
                if_pos (ge_of_eq heq), hdir, Vec2.neg_def,
                add_comm massInverseB massInverseA, min_comm o2.depth o1.depth,
                hshare, hshareA, Vec2.scale, Vec2.dot, Vec2.add_def, Vec2.sub_def,
                Vec2.mk.injEq]
              exact ⟨⟨by ring, by ring⟩, ⟨by ring, by ring⟩, ⟨by ring, by ring⟩,
                ⟨by ring, by ring⟩⟩
          · simp only [ge_iff_le, if_pos hgt, if_neg (not_lt.mpr hgt.le), if_pos hgt.le,
              if_neg (not_le.mpr hgt), add_comm massInverseB massInverseA,
              min_comm o2.depth o1.depth, hshare, hshareA, Vec2.scale, Vec2.dot,
              Vec2.add_def, Vec2.sub_def, Vec2.mk.injEq]
            exact ⟨⟨by ring, by ring⟩, ⟨by ring, by ring⟩, ⟨by ring, by ring⟩,
              ⟨by ring, by ring⟩⟩
    · have hb1 : boundsOverlap boundsA boundsB = false := by simpa using hb
      have hb2 : boundsOverlap boundsB boundsA = false := by
        rw [boundsOverlap_comm]; exact hb1
      rw [solveCollision_miss _ _ _ _ _ _ _ _ _ _ _ _ (Or.inr (Or.inl hb2)),
        solveCollision_miss _ _ _ _ _ _ _ _ _ _ _ _ (Or.inr (Or.inl hb1))]
      exact ⟨rfl, rfl, rfl, rfl⟩

/-- The broad check also passes with the §8 bounds swapped. -/
theorem boundsOverlap_BA_eval : boundsOverlap boundsB0 boundsA0 = true := by
  norm_num [boundsOverlap, boundsA0, boundsB0]

/-- Full evaluation of the unit-square scenario with inverse masses `1`
and `2` and `velocityA = (1,0)`. -/
theorem solveCollision_masses12_eval :
    solveCollision 1 2 boundsA0 boundsB0 posA0 posB0 unitSquare unitSquare
        ⟨1, 0⟩ ⟨0, 0⟩ ⟨0, 0⟩ ⟨0, 0⟩ =
      ⟨⟨1/3, 0⟩, ⟨4/3, 0⟩, ⟨-(1/6), 0⟩, ⟨1/3, 0⟩⟩ := by
  rw [solveCollision_hit 1 2 boundsA0 boundsB0 posA0 posB0 unitSquare unitSquare
    ⟨1, 0⟩ ⟨0, 0⟩ ⟨0, 0⟩ ⟨0, 0⟩ ⟨1/2, ⟨1, 0⟩⟩ ⟨1/2, ⟨-1, 0⟩⟩ (by simp [areBothStatic])
    boundsOverlap_AB_eval checkOverlap_AB_eval checkOverlap_BA_eval]
  norm_num [Vec2.scale, Vec2.dot, Vec2.add_def, Vec2.sub_def, SolveResult.mk.injEq,
    Vec2.mk.injEq]

/-- Full evaluation of the same pair passed in swapped order. -/
theorem solveCollision_masses21_eval :
    solveCollision 2 1 boundsB0 boundsA0 posB0 posA0 unitSquare unitSquare
        ⟨0, 0⟩ ⟨1, 0⟩ ⟨0, 0⟩ ⟨0, 0⟩ =
      ⟨⟨4/3, 0⟩, ⟨1/3, 0⟩, ⟨1/3, 0⟩, ⟨-(1/6), 0⟩⟩ := by
  rw [solveCollision_hit 2 1 boundsB0 boundsA0 posB0 posA0 unitSquare unitSquare
    ⟨0, 0⟩ ⟨1, 0⟩ ⟨0, 0⟩ ⟨0, 0⟩ ⟨1/2, ⟨-1, 0⟩⟩ ⟨1/2, ⟨1, 0⟩⟩ (by simp [areBothStatic])
    boundsOverlap_BA_eval checkOverlap_BA_eval checkOverlap_AB_eval]
  norm_num [Vec2.scale, Vec2.dot, Vec2.add_def, Vec2.sub_def, SolveResult.mk.injEq,
    Vec2.mk.injEq]

/-- Counterexample for C6: with inverse masses `1` and `2` on the
unit-square scenario with `velocityA = (1,0)`, the swapped call gives each
body exactly the same (nonzero) velocity delta and accumulator delta as
the unswapped call — equal, not equal-and-opposite; the slot-wise reading
of the claim fails as well. -/
theorem solveCollision_swap_not_opposite :
    (solveCollision 1 2 boundsA0 boundsB0 posA0 posB0 unitSquare unitSquare
        ⟨1, 0⟩ ⟨0, 0⟩ ⟨0, 0⟩ ⟨0, 0⟩).velocityA - ⟨1, 0⟩ = ⟨-(2/3), 0⟩ ∧
    (solveCollision 2 1 boundsB0 boundsA0 posB0 posA0 unitSquare unitSquare
        ⟨0, 0⟩ ⟨1, 0⟩ ⟨0, 0⟩ ⟨0, 0⟩).velocityB - ⟨1, 0⟩ = ⟨-(2/3), 0⟩ ∧
    (⟨-(2/3), 0⟩ : Vec2) ≠ -(⟨-(2/3), 0⟩ : Vec2) ∧
    (solveCollision 2 1 boundsB0 boundsA0 posB0 posA0 unitSquare unitSquare
        ⟨0, 0⟩ ⟨1, 0⟩ ⟨0, 0⟩ ⟨0, 0⟩).velocityA - ⟨0, 0⟩ ≠
      -((solveCollision 1 2 boundsA0 boundsB0 posA0 posB0 unitSquare unitSquare
        ⟨1, 0⟩ ⟨0, 0⟩ ⟨0, 0⟩ ⟨0, 0⟩).velocityA - ⟨1, 0⟩) ∧
    (solveCollision 2 1 boundsB0 boundsA0 posB0 posA0 unitSquare unitSquare
        ⟨0, 0⟩ ⟨1, 0⟩ ⟨0, 0⟩ ⟨0, 0⟩).overlapAccumulatorB =
      (solveCollision 1 2 boundsA0 boundsB0 posA0 posB0 unitSquare unitSquare
        ⟨1, 0⟩ ⟨0, 0⟩ ⟨0, 0⟩ ⟨0, 0⟩).overlapAccumulatorA ∧
    (solveCollision 1 2 boundsA0 boundsB0 posA0 posB0 unitSquare unitSquare
        ⟨1, 0⟩ ⟨0, 0⟩ ⟨0, 0⟩ ⟨0, 0⟩).overlapAccumulatorA ≠
      -((solveCollision 1 2 boundsA0 boundsB0 posA0 posB0 unitSquare unitSquare
        ⟨1, 0⟩ ⟨0, 0⟩ ⟨0, 0⟩ ⟨0, 0⟩).overlapAccumulatorA) := by
  rw [solveCollision_masses12_eval, solveCollision_masses21_eval]
  norm_num [Vec2.sub_def, Vec2.neg_def, Vec2.mk.injEq]

/-- Witness for C6 (amended), at the equal-mass unit-square scenario with
`velocityA = (1,0)`: the swapped call reproduces each body's new velocity
and accumulator. -/
theorem solveCollision_swap_per_body_witness :
    (solveCollision 1 1 boundsB0 boundsA0 posB0 posA0 unitSquare unitSquare
        ⟨0, 0⟩ ⟨1, 0⟩ ⟨0, 0⟩ ⟨0, 0⟩).velocityA =
      (solveCollision 1 1 boundsA0 boundsB0 posA0 posB0 unitSquare unitSquare
        ⟨1, 0⟩ ⟨0, 0⟩ ⟨0, 0⟩ ⟨0, 0⟩).velocityB ∧
    (solveCollision 1 1 boundsB0 boundsA0 posB0 posA0 unitSquare unitSquare
        ⟨0, 0⟩ ⟨1, 0⟩ ⟨0, 0⟩ ⟨0, 0⟩).velocityB =
      (solveCollision 1 1 boundsA0 boundsB0 posA0 posB0 unitSquare unitSquare
        ⟨1, 0⟩ ⟨0, 0⟩ ⟨0, 0⟩ ⟨0, 0⟩).velocityA ∧
    (solveCollision 1 1 boundsB0 boundsA0 posB0 posA0 unitSquare unitSquare
        ⟨0, 0⟩ ⟨1, 0⟩ ⟨0, 0⟩ ⟨0, 0⟩).overlapAccumulatorA =
      (solveCollision 1 1 boundsA0 boundsB0 posA0 posB0 unitSquare unitSquare
        ⟨1, 0⟩ ⟨0, 0⟩ ⟨0, 0⟩ ⟨0, 0⟩).overlapAccumulatorB ∧
    (solveCollision 1 1 boundsB0 boundsA0 posB0 posA0 unitSquare unitSquare
        ⟨0, 0⟩ ⟨1, 0⟩ ⟨0, 0⟩ ⟨0, 0⟩).overlapAccumulatorB =
      (solveCollision 1 1 boundsA0 boundsB0 posA0 posB0 unitSquare unitSquare
        ⟨1, 0⟩ ⟨0, 0⟩ ⟨0, 0⟩ ⟨0, 0⟩).overlapAccumulatorA :=
  solveCollision_swap_per_body 1 1 boundsA0 boundsB0 posA0 posB0 unitSquare unitSquare
    ⟨1, 0⟩ ⟨0, 0⟩ ⟨0, 0⟩ ⟨0, 0⟩ (by norm_num) (by norm_num)
    (fun o1 o2 e1 e2 => by
      rw [checkOverlap_AB_eval] at e1
      rw [checkOverlap_BA_eval] at e2
      obtain rfl := Option.some.inj e1
      obtain rfl := Option.some.inj e2
      right
      norm_num [Vec2.neg_def, Vec2.mk.injEq])

end CollisionSolver
